import Mathlib

/-
Verification of the streaming notification engine of `O365_notifications`
(`src/O365_notifications/streaming.py`): the byte-level bracket demuxer, the
notification classifier, and the reconnect/renewal loop of
`O365StreamingSubscriber.create_event_channel`.

The embedding works over `List Char` for the response body.  The Python code
drains the response with `response.iter_content(chunk_size=1)`, so the
transport's chunk boundaries are invisible to the algorithm: every byte is
processed individually regardless of how the server split the body.  The model
therefore consumes one byte (`Char`) at a time.
-/

set_option autoImplicit false

namespace O365

/-- A flat JSON scalar value: the element objects of the notification feed are
flat JSON objects (spec, section 1: "one top-level array of flat JSON objects,
no nested arrays inside elements").  Strings carry their character list;
numbers are modelled as integers. -/
inductive JVal where
  | str (s : List Char)
  | num (n : Int)
  | bool (b : Bool)
  | null
deriving DecidableEq

/-- A flat JSON object: an association list of string keys to scalar values,
in source order. `json.loads` returns a Python dict; for objects without
duplicate keys the association list in parse order carries the same
information. -/
abbrev JObj := List (List Char × JVal)

/-- Characters that are safe inside a modelled JSON string: no quote, no
backslash and none of the four structural bracket characters. -/
def okStrChar (c : Char) : Bool :=
  !(c == '"') && !(c == '\\') && !(c == '\x7b') && !(c == '\x7d')
    && !(c == '[') && !(c == ']')

/-- All characters of the string are safe. -/
def okStr (s : List Char) : Bool := s.all okStrChar

/-- A scalar value whose serialized text contains no structural surprises. -/
def okVal : JVal → Bool
  | .str s => okStr s
  | _ => true

/-- A flat object whose keys and string values are all safe. -/
def okObj (o : JObj) : Bool := o.all (fun p => okStr p.1 && okVal p.2)

/-- A character the inner demux loop treats neutrally: not `\x7b`, `\x7d`
or `]` (the only bytes the inner loop of `create_event_channel` inspects). -/
def neutralChar (c : Char) : Bool :=
  !(c == '\x7b') && !(c == '\x7d') && !(c == ']')

/-- An ASCII decimal digit. -/
def isDigitChar (c : Char) : Bool := decide (48 ≤ c.toNat ∧ c.toNat ≤ 57)

/-- The character of a decimal digit. -/
def digitChar (d : Nat) : Char := Char.ofNat (48 + d)

/-- Decimal digit expansion of a natural number, most significant first;
the fuel argument bounds the recursion depth. -/
def natDigitsAux : Nat → Nat → List Char
  | 0, _ => []
  | fuel + 1, n =>
      if n < 10 then [digitChar n]
      else natDigitsAux fuel (n / 10) ++ [digitChar (n % 10)]

/-- Decimal digit expansion of a natural number. -/
def natDigits (n : Nat) : List Char := natDigitsAux (n + 1) n

/-- Value of a list of decimal digit characters. -/
def digitsToNat (ds : List Char) : Nat :=
  ds.foldl (fun a c => a * 10 + (c.toNat - 48)) 0

/-- Split a character list into its maximal digit prefix and the rest. -/
def takeDigits : List Char → List Char × List Char
  | [] => ([], [])
  | c :: r =>
      if isDigitChar c then (c :: (takeDigits r).1, (takeDigits r).2)
      else ([], c :: r)

/-- Scan up to the next quote character, returning the scanned prefix and the
rest after the quote; fails if the input ends before a quote. -/
def spanNotQuote : List Char → Option (List Char × List Char)
  | [] => none
  | c :: r =>
      if c = '"' then some ([], r)
      else (spanNotQuote r).map (fun p => (c :: p.1, p.2))

/-- Parse a JSON string literal (a quote, plain characters, a quote) at the
head of the input. -/
def parseStringAt : List Char → Option (List Char × List Char)
  | [] => none
  | c :: r => if c = '"' then spanNotQuote r else none

/-- Parse an integer JSON number at the head of the input. -/
def parseNumAt (l : List Char) : Option (Int × List Char) :=
  match l with
  | [] => none
  | c :: r =>
      if c = '-' then
        if (takeDigits r).1 = [] then none
        else some (-(digitsToNat (takeDigits r).1 : Int), (takeDigits r).2)
      else
        if (takeDigits (c :: r)).1 = [] then none
        else some ((digitsToNat (takeDigits (c :: r)).1 : Int), (takeDigits (c :: r)).2)

/-- Parse a flat scalar JSON value at the head of the input. -/
def parseVal (l : List Char) : Option (JVal × List Char) :=
  match l with
  | [] => none
  | c :: r =>
      if c = '"' then (spanNotQuote r).map (fun p => (JVal.str p.1, p.2))
      else if c = 't' then
        match r with
        | 'r' :: 'u' :: 'e' :: rest => some (JVal.bool true, rest)
        | _ => none
      else if c = 'f' then
        match r with
        | 'a' :: 'l' :: 's' :: 'e' :: rest => some (JVal.bool false, rest)
        | _ => none
      else if c = 'n' then
        match r with
        | 'u' :: 'l' :: 'l' :: rest => some (JVal.null, rest)
        | _ => none
      else (parseNumAt (c :: r)).map (fun p => (JVal.num p.1, p.2))

/-- Parse the members of a flat JSON object after the opening brace: a
comma-separated sequence of `"key":value` pairs ending at the closing brace.
The fuel bounds the number of members. -/
def parseMembersF : Nat → List Char → Option (JObj × List Char)
  | 0, _ => none
  | fuel + 1, l =>
      match parseStringAt l with
      | none => none
      | some (k, l1) =>
          match l1 with
          | [] => none
          | c1 :: l2 =>
              if c1 = ':' then
                match parseVal l2 with
                | none => none
                | some (v, l3) =>
                    match l3 with
                    | [] => none
                    | c3 :: l4 =>
                        if c3 = ',' then
                          match parseMembersF fuel l4 with
                          | none => none
                          | some (m, r) => some ((k, v) :: m, r)
                        else if c3 = '\x7d' then some ([(k, v)], l4)
                        else none
              else none

/-- Model of `json.loads` on the documented wire subset: a single flat JSON
object in canonical form (no inter-token whitespace, no escape sequences,
integer numbers).  Returns `none` on any text outside this shape, matching the
decode failure of `json.loads` on malformed object text. -/
def loads (l : List Char) : Option JObj :=
  match l with
  | [] => none
  | c :: rest =>
      if c = '\x7b' then
        if rest = ['\x7d'] then some []
        else
          match parseMembersF (rest.length + 1) rest with
          | none => none
          | some (o, r) => if r = [] then some o else none
      else none

/-- Serialization of a JSON string literal (canonical, no escapes). -/
def serStr (s : List Char) : List Char := '"' :: s ++ ['"']

/-- Serialization of an integer JSON number. -/
def serNum (n : Int) : List Char :=
  if n < 0 then '-' :: natDigits n.natAbs else natDigits n.natAbs

/-- Serialization of a flat scalar JSON value. -/
def serVal : JVal → List Char
  | .str s => serStr s
  | .num n => serNum n
  | .bool true => ['t', 'r', 'u', 'e']
  | .bool false => ['f', 'a', 'l', 's', 'e']
  | .null => ['n', 'u', 'l', 'l']

/-- Serialization of the member list of a flat JSON object, comma separated. -/
def serMembers : JObj → List Char
  | [] => []
  | [(k, v)] => serStr k ++ ':' :: serVal v
  | (k, v) :: rest => serStr k ++ ':' :: serVal v ++ ',' :: serMembers rest

/-- Serialization of a flat JSON object. -/
def serObj (o : JObj) : List Char := '\x7b' :: serMembers o ++ ['\x7d']

/-- Serialization of a comma-separated sequence of flat JSON objects. -/
def serObjsSep : List JObj → List Char
  | [] => []
  | [o] => serObj o
  | o :: rest => serObj o ++ ',' :: serObjsSep rest

/-- Serialization of a response body: one outer JSON array whose elements are
the given flat objects. -/
def serBody (objs : List JObj) : List Char := '[' :: serObjsSep objs ++ [']']

/-- An entry of the `bracket_control` list of `create_event_channel`:
the code appends the bytes `b"["` and `b"\x7b"` to a Python list.  (The
sentinel `True` appended just before the final break is not stored: that step
is modelled as the terminal `closed` result.) -/
inductive BTok where
  | lbracket
  | lbrace
deriving DecidableEq

/-- The mutable state of the inner streaming read loop: the byte accumulator
`stream_data` and the bracket stack `bracket_control`
(streaming.py lines 113-114). -/
structure DemuxState where
  stream_data : List Char
  bracket_control : List BTok
deriving DecidableEq

/-- The state at entry of the inner loop, just after the outer loop consumed
the opening `[` (streaming.py lines 117-118): empty buffer, one `[` pushed. -/
def demuxInit : DemuxState := ⟨[], [BTok.lbracket]⟩

/-- Python `list.remove`: drop the first occurrence of `x`; `none` models the
`ValueError` raised when `x` is absent. -/
def listRemove (x : BTok) : List BTok → Option (List BTok)
  | [] => none
  | y :: r => if y = x then some r else (listRemove x r).map (fun l => y :: l)

/-- The two exceptions the demux loop body can raise itself: `ValueError`
from `list.remove` on an absent element, and `json.JSONDecodeError` from
`json.loads`. -/
inductive DemuxError where
  | valueError
  | decodeError
deriving DecidableEq

/-- Result of processing one byte of the inner loop body
(streaming.py lines 120-142). -/
inductive StepResult where
  | cont (s : DemuxState)
  | emit (raw : JObj) (s : DemuxState)
  | closed
  | error (e : DemuxError)
deriving DecidableEq

/-- The bracket bookkeeping of the inner loop (streaming.py lines 122-127):
push on `\x7b`, `list.remove(b"\x7b")` on `\x7d`, `list.remove(b"[")` on `]`,
anything else leaves the stack unchanged.  `none` models the `ValueError`
raised by `list.remove`. -/
def stepCtrl (ctrl : List BTok) (c : Char) : Option (List BTok) :=
  if c = '\x7b' then some (ctrl ++ [BTok.lbrace])
  else if c = '\x7d' then listRemove .lbrace ctrl
  else if c = ']' then listRemove .lbracket ctrl
  else some ctrl

/-- The dispatch after the bookkeeping (streaming.py lines 129-142): while a
`\x7b` is on the stack, accumulate the byte; otherwise, if the `[` is still on
the stack and the buffer is non-empty, close the buffered object with `\x7d`,
decode it and emit it; if the stack is empty, the array has closed
(the code appends `True` and breaks both loops). -/
def demuxApply (buf : List Char) (c : Char) (ctrl : List BTok) : StepResult :=
  if BTok.lbrace ∈ ctrl then .cont ⟨buf ++ [c], ctrl⟩
  else if BTok.lbracket ∈ ctrl then
    if buf = [] then .cont ⟨buf, ctrl⟩
    else
      match loads (buf ++ ['\x7d']) with
      | some obj => .emit obj ⟨[], ctrl⟩
      | none => .error .decodeError
  else .closed

/-- One iteration of the inner loop body of `create_event_channel` on one
byte (streaming.py lines 120-142). -/
def demuxStep (s : DemuxState) (c : Char) : StepResult :=
  match stepCtrl s.bracket_control c with
  | none => .error .valueError
  | some ctrl => demuxApply s.stream_data c ctrl

/-- Run the inner loop while every step continues (through `cont` and `emit`
steps), returning the final state; `none` as soon as a step closes the array
or raises. Used to state the parse-buffer invariant. -/
def runCont : DemuxState → List Char → Option DemuxState
  | s, [] => some s
  | s, c :: l =>
      match demuxStep s c with
      | .cont s' => runCont s' l
      | .emit _ s' => runCont s' l
      | _ => none

/-- How the response byte stream ends: cleanly (the iterator is exhausted) or
with `requests.exceptions.ChunkedEncodingError` raised by `iter_content`
(the server closed the connection mid-body). -/
inductive StreamEnd where
  | clean
  | corrupt
deriving DecidableEq

/-- How one streaming cycle (the `with response:` block) can end without an
exception escaping; each of these falls through to the
`refresh_after_expire` check (streaming.py lines 157-161). -/
inductive CycleEnd where
  /-- The array closed with `]`: the code appends `True` to `bracket_control`
  and breaks both loops (streaming.py lines 139-142, 153-155). -/
  | closed
  /-- The byte iterator was exhausted mid-array; the outer loop then breaks
  because `bracket_control` is non-empty. -/
  | exhausted
  /-- `ChunkedEncodingError` was raised inside the inner loop and suppressed
  (streaming.py lines 144-150). -/
  | corrupted
  /-- The stream ended before any `[` was seen by the outer loop. -/
  | noArray
deriving DecidableEq

/-- Errors that escape `create_event_channel` (modelled exceptions). -/
inductive RunError where
  /-- The `ValueError` of the no-subscription guard (streaming.py line 79). -/
  | valueErrorNoSubscription
  /-- A re-raised `requests.exceptions.HTTPError` (streaming.py line 104). -/
  | httpError (status : Nat)
  /-- A `ValueError` from `bracket_control.remove` on an absent element,
  re-raised at line 152. -/
  | demuxValueError
  /-- A `json.JSONDecodeError` from `json.loads`, re-raised at line 152. -/
  | decodeError
  /-- A `ChunkedEncodingError` raised by the outer `iter_content` loop, which
  is outside the `try` block and therefore not suppressed. -/
  | chunkedEncodingError
deriving DecidableEq

/-- Result of one streaming cycle: the decoded objects emitted in order, and
either a fall-through end or an escaping exception. -/
inductive CycleResult where
  | ended (objs : List JObj) (e : CycleEnd)
  | fatal (objs : List JObj) (err : RunError)
deriving DecidableEq

/-- Prepend an emitted object to a cycle result. -/
def consCycle (o : JObj) : CycleResult → CycleResult
  | .ended objs e => .ended (o :: objs) e
  | .fatal objs err => .fatal (o :: objs) err

/-- The inner byte loop (streaming.py lines 120-152), from state `s`, over the
remaining bytes, with the given stream-end behaviour. -/
def runInner : DemuxState → List Char → StreamEnd → CycleResult
  | _, [], .clean => .ended [] .exhausted
  | _, [], .corrupt => .ended [] .corrupted
  | s, c :: rest, e =>
      match demuxStep s c with
      | .cont s' => runInner s' rest e
      | .emit o s' => consCycle o (runInner s' rest e)
      | .closed => .ended [] .closed
      | .error .valueError => .fatal [] .demuxValueError
      | .error .decodeError => .fatal [] .decodeError

/-- One whole streaming cycle (streaming.py lines 112-155): the outer loop
discards bytes until a `[` arrives, then the inner loop runs; a
`ChunkedEncodingError` raised before any `[` is outside the `try` block and
escapes. -/
def runCycle : List Char → StreamEnd → CycleResult
  | [], .clean => .ended [] .noArray
  | [], .corrupt => .fatal [] .chunkedEncodingError
  | c :: rest, e =>
      if c = '[' then runInner demuxInit rest e
      else runCycle rest e

/-- Modelled from the spec: the wire key of the notification type
discriminator.  `O365_notifications.base` (which declares the base schema) is
not under src/; the spec only says each element carries "a type discriminator
field", which on the O365 streaming wire is the `@odata.type` annotation. -/
def typeKey : List Char := "@odata.type".data

/-- Modelled from the spec: the namespace's discriminator value for a real
data notification (`O365NotificationType.NOTIFICATION` in
`notification_factory`, streaming.py line 55; the enum itself is not under
src/). -/
def notificationTag : List Char := "#Microsoft.OutlookServices.Notification".data

/-- Modelled from the spec: the namespace's discriminator value for a
keep-alive signal (`O365NotificationType.KEEP_ALIVE_NOTIFICATION`,
streaming.py line 57; the enum itself is not under src/). -/
def keepAliveTag : List Char := "#Microsoft.OutlookServices.KeepAliveNotification".data

/-- The wire key of the keep-alive status field: `data_key="Status"`
(streaming.py line 28). -/
def statusKey : List Char := "Status".data

/-- First value stored under a key of a flat object. -/
def lookupField (o : JObj) (k : List Char) : Option JVal :=
  (o.find? (fun p => p.1 = k)).map (fun p => p.2)

/-- Modelled from the spec: the base schema load of `notification_factory`
(streaming.py line 54) only to the extent used there — reading the type
discriminator string of the decoded object (`base.type`). -/
def baseTypeOf (data : JObj) : Option (List Char) :=
  match lookupField data typeKey with
  | some (.str t) => some t
  | _ => none

/-- The keep-alive status string of the decoded object (wire key `Status`,
streaming.py line 28). -/
def statusOf (data : JObj) : Option (List Char) :=
  match lookupField data statusKey with
  | some (.str s) => some s
  | _ => none

/-- The typed records `notification_factory` can build: `O365Notification`
(deserialized from the full payload, unchanged) or `O365KeepAliveNotification`
(carrying the status field, streaming.py lines 24-30). -/
inductive O365Notif where
  | notification (payload : JObj)
  | keepAlive (status : Option (List Char))
deriving DecidableEq

/-- `O365StreamingSubscriber.notification_factory` (streaming.py lines 53-58):
dispatch on the type discriminator; a data notification deserializes the full
payload, a keep-alive carries the status field, and any other discriminator
falls through the if/elif chain, so the Python function returns `None`. -/
def notification_factory (data : JObj) : Option O365Notif :=
  match baseTypeOf data with
  | some t =>
      if t = notificationTag then some (.notification data)
      else if t = keepAliveTag then some (.keepAlive (statusOf data))
      else none
  | none => none

/-- The JSON body of the open-session POST (streaming.py lines 84-88):
connection timeout, keep-alive interval, and the subscription id list. -/
structure RequestSchema where
  connectionTimeout : Nat
  keepAliveInterval : Nat
  subscriptionIds : List String
deriving DecidableEq

/-- Behaviour of one `self.con.post` open attempt: an `HTTPError` with the
given status, a falsy response (`if not response: return`), or a streamed
response body with its end behaviour. -/
inductive OpenResult where
  | httpError (status : Nat)
  | emptyResponse
  | stream (bytes : List Char) (e : StreamEnd)
deriving DecidableEq

/-- Observable events of one `create_event_channel` run, in order: each
open-session POST with the request body it carried, each
`renew_subscriptions` call, and each `notification_handler.process` call with
the value `notification_factory` returned for the emitted object. -/
inductive Event where
  | openAttempt (req : RequestSchema)
  | renewCall
  | handle (n : Option O365Notif)
deriving DecidableEq

/-- How a `create_event_channel` run ends: a normal return, a raised
exception, or exhaustion of the supplied environment (the run would continue
with further network activity). -/
inductive Outcome where
  | returned
  | raised (e : RunError)
  | outOfEnv
deriving DecidableEq

/-- The handler calls of one cycle: `notification_handler.process` is invoked
once per emitted object, with whatever `notification_factory` returned for it
(streaming.py lines 135-137 call `process` unconditionally). -/
def handleEvents (objs : List JObj) : List Event :=
  objs.map (fun o => Event.handle (notification_factory o))

/-- The `while True:` retry loop of `create_event_channel` (streaming.py lines
91-161), driven by an environment listing the successive open-attempt results
and the successive renewal results.  On a 404 `HTTPError` the subscription id
list of the request body is replaced wholesale by the renewed ids and the
open is retried; any other `HTTPError` is re-raised; a falsy response returns;
a streamed response runs one cycle, after which the loop continues only when
`refresh_after_expire` is set. -/
def channelLoop (req : RequestSchema) (refresh : Bool) :
    List OpenResult → List (List String) → List Event × Outcome
  | [], _ => ([], .outOfEnv)
  | o :: opens, renews =>
      match o with
      | .httpError s =>
          if s = 404 then
            match renews with
            | [] => ([.openAttempt req], .outOfEnv)
            | r :: renews' =>
                let t := channelLoop { req with subscriptionIds := r } refresh opens renews'
                (.openAttempt req :: .renewCall :: t.1, t.2)
          else ([.openAttempt req], .raised (.httpError s))
      | .emptyResponse => ([.openAttempt req], .returned)
      | .stream bytes e =>
          match runCycle bytes e with
          | .fatal objs err =>
              (.openAttempt req :: handleEvents objs, .raised err)
          | .ended objs _ =>
              if refresh then
                let t := channelLoop req refresh opens renews
                (.openAttempt req :: (handleEvents objs ++ t.1), t.2)
              else (.openAttempt req :: handleEvents objs, .returned)

/-- `O365StreamingSubscriber.create_event_channel` (streaming.py lines
60-163): the guard rejecting an empty subscription list with `ValueError`
before any network call, then the retry loop on the initial request body. -/
def create_event_channel (subscriptions : List String)
    (connection_timeout keep_alive_interval : Nat)
    (refresh_after_expire : Bool)
    (opens : List OpenResult) (renews : List (List String)) :
    List Event × Outcome :=
  if subscriptions = [] then ([], .raised .valueErrorNoSubscription)
  else
    channelLoop
      ⟨connection_timeout, keep_alive_interval, subscriptions⟩
      refresh_after_expire opens renews

/-! ### Character-class and digit lemmas -/

theorem neutralChar_iff (c : Char) :
    neutralChar c = true ↔ c ≠ '\x7b' ∧ c ≠ '\x7d' ∧ c ≠ ']' := by
  simp [neutralChar, and_assoc]

theorem okStrChar_neutral (c : Char) (h : okStrChar c = true) :
    neutralChar c = true := by
  simp [okStrChar, and_assoc] at h
  rw [neutralChar_iff]
  exact ⟨h.2.2.1, h.2.2.2.1, h.2.2.2.2.2⟩

theorem okStrChar_ne_quote (c : Char) (h : okStrChar c = true) : c ≠ '"' := by
  simp [okStrChar, and_assoc] at h
  exact h.1

theorem isDigitChar_neutral (c : Char) (h : isDigitChar c = true) :
    neutralChar c = true := by
  rw [neutralChar_iff]
  refine ⟨?_, ?_, ?_⟩ <;> rintro rfl <;> exact absurd h (by decide)

theorem isDigitChar_ne (c : Char) (h : isDigitChar c = true) :
    c ≠ '"' ∧ c ≠ 't' ∧ c ≠ 'f' ∧ c ≠ 'n' ∧ c ≠ '-' := by
  refine ⟨?_, ?_, ?_, ?_, ?_⟩ <;> rintro rfl <;> exact absurd h (by decide)

theorem digitChar_toNat (d : Nat) (h : d < 10) : (digitChar d).toNat = 48 + d := by
  interval_cases d <;> decide

theorem digitChar_isDigit (d : Nat) (h : d < 10) :
    isDigitChar (digitChar d) = true := by
  interval_cases d <;> decide

theorem natDigitsAux_all_digit :
    ∀ (fuel n : Nat), ∀ c ∈ natDigitsAux fuel n, isDigitChar c = true := by
  intro fuel
  induction fuel with
  | zero => intro n c h; simp [natDigitsAux] at h
  | succ f ih =>
      intro n c h
      simp only [natDigitsAux] at h
      split at h
      · next hn =>
          simp only [List.mem_singleton] at h
          subst h
          exact digitChar_isDigit n hn
      · next hn =>
          rw [List.mem_append] at h
          rcases h with h | h
          · exact ih _ c h
          · simp only [List.mem_singleton] at h
            subst h
            exact digitChar_isDigit _ (Nat.mod_lt _ (by omega))

theorem natDigits_all_digit (n : Nat) : ∀ c ∈ natDigits n, isDigitChar c = true :=
  natDigitsAux_all_digit (n + 1) n

theorem natDigits_ne_nil (n : Nat) : natDigits n ≠ [] := by
  unfold natDigits natDigitsAux
  split <;> simp

theorem digitsToNat_append (l : List Char) (c : Char) :
    digitsToNat (l ++ [c]) = digitsToNat l * 10 + (c.toNat - 48) := by
  simp [digitsToNat, List.foldl_append]

theorem digitsToNat_natDigitsAux :
    ∀ fuel n, n < fuel → digitsToNat (natDigitsAux fuel n) = n := by
  intro fuel
  induction fuel with
  | zero => omega
  | succ f ih =>
      intro n hn
      simp only [natDigitsAux]
      split
      · next h =>
          simp [digitsToNat, digitChar_toNat n h]
      · next h =>
          rw [digitsToNat_append, ih (n / 10) (by omega),
            digitChar_toNat (n % 10) (by omega)]
          omega

theorem digitsToNat_natDigits (n : Nat) : digitsToNat (natDigits n) = n :=
  digitsToNat_natDigitsAux (n + 1) n (by omega)

/-! ### Parser round-trip lemmas -/

theorem takeDigits_append (l rest : List Char)
    (hl : ∀ c ∈ l, isDigitChar c = true)
    (hr : ∀ c, rest.head? = some c → isDigitChar c = false) :
    takeDigits (l ++ rest) = (l, rest) := by
  induction l with
  | nil =>
      simp only [List.nil_append]
      cases rest with
      | nil => rfl
      | cons c r =>
          have hc : isDigitChar c = false := hr c rfl
          simp [takeDigits, hc]
  | cons c l ih =>
      have hc : isDigitChar c = true := hl c (by simp)
      have ih' := ih (fun d hd => hl d (by simp [hd]))
      simp [takeDigits, hc, ih']

theorem spanNotQuote_append (s rest : List Char)
    (hs : ∀ c ∈ s, c ≠ '"') :
    spanNotQuote (s ++ '"' :: rest) = some (s, rest) := by
  induction s with
  | nil => simp [spanNotQuote]
  | cons c l ih =>
      have hc : c ≠ '"' := hs c (by simp)
      simp [spanNotQuote, hc, ih (fun d hd => hs d (by simp [hd]))]

theorem okStr_ne_quote (s : List Char) (hs : okStr s = true) :
    ∀ c ∈ s, c ≠ '"' := by
  intro c hc
  rw [okStr, List.all_eq_true] at hs
  exact okStrChar_ne_quote c (hs c hc)

theorem parseStringAt_ser (k rest : List Char) (hk : okStr k = true) :
    parseStringAt (serStr k ++ rest) = some (k, rest) := by
  have h1 : serStr k ++ rest = '"' :: (k ++ '"' :: rest) := by
    simp [serStr]
  rw [h1]
  simp [parseStringAt, spanNotQuote_append k rest (okStr_ne_quote k hk)]

theorem parseNumAt_cons_neg (r : List Char) :
    parseNumAt ('-' :: r)
      = if (takeDigits r).1 = [] then none
        else some (-(digitsToNat (takeDigits r).1 : Int), (takeDigits r).2) := rfl

theorem parseNumAt_cons_of_ne (c : Char) (r : List Char) (hc : c ≠ '-') :
    parseNumAt (c :: r)
      = if (takeDigits (c :: r)).1 = [] then none
        else some ((digitsToNat (takeDigits (c :: r)).1 : Int), (takeDigits (c :: r)).2) := by
  simp only [parseNumAt, if_neg hc]

theorem parseNumAt_ser (n : Int) (rest : List Char)
    (hr : ∀ c, rest.head? = some c → isDigitChar c = false) :
    parseNumAt (serNum n ++ rest) = some (n, rest) := by
  have htd : takeDigits (natDigits n.natAbs ++ rest) = (natDigits n.natAbs, rest) :=
    takeDigits_append _ _ (natDigits_all_digit n.natAbs) hr
  by_cases hn : n < 0
  · have h1 : serNum n = '-' :: natDigits n.natAbs := by rw [serNum, if_pos hn]
    rw [h1, List.cons_append, parseNumAt_cons_neg, htd]
    rw [if_neg (natDigits_ne_nil n.natAbs)]
    rw [digitsToNat_natDigits]
    rw [show -(n.natAbs : Int) = n from by omega]
  · obtain ⟨d, ds, hds⟩ : ∃ d ds, natDigits n.natAbs = d :: ds := by
      cases h : natDigits n.natAbs with
      | nil => exact absurd h (natDigits_ne_nil _)
      | cons d ds => exact ⟨d, ds, rfl⟩
    have hdig : isDigitChar d = true :=
      natDigits_all_digit n.natAbs d (by rw [hds]; simp)
    have h1 : serNum n = d :: ds := by rw [serNum, if_neg hn, hds]
    rw [h1, List.cons_append, parseNumAt_cons_of_ne d _ (isDigitChar_ne d hdig).2.2.2.2]
    rw [show d :: (ds ++ rest) = natDigits n.natAbs ++ rest from by rw [hds, List.cons_append]]
    rw [htd]
    rw [if_neg (natDigits_ne_nil n.natAbs)]
    rw [digitsToNat_natDigits]
    rw [show (n.natAbs : Int) = n from by omega]

theorem parseVal_ser (v : JVal) (rest : List Char) (hv : okVal v = true)
    (hr : ∀ c, rest.head? = some c → isDigitChar c = false) :
    parseVal (serVal v ++ rest) = some (v, rest) := by
  cases v with
  | str a =>
      have h1 : serVal (JVal.str a) ++ rest = '"' :: (a ++ '"' :: rest) := by
        simp [serVal, serStr]
      rw [h1]
      simp only [parseVal, if_pos]
      rw [spanNotQuote_append a rest (okStr_ne_quote a hv)]
      rfl
  | num n =>
      have hnum := parseNumAt_ser n rest hr
      by_cases hn : n < 0
      · have h1 : serNum n = '-' :: natDigits n.natAbs := by rw [serNum, if_pos hn]
        simp only [serVal]
        rw [h1, List.cons_append] at hnum ⊢
        simp only [parseVal]
        rw [if_neg (by decide : ¬('-' = '"')), if_neg (by decide : ¬('-' = 't')),
          if_neg (by decide : ¬('-' = 'f')), if_neg (by decide : ¬('-' = 'n'))]
        rw [hnum]
        rfl
      · obtain ⟨d, ds, hds⟩ : ∃ d ds, natDigits n.natAbs = d :: ds := by
          cases h : natDigits n.natAbs with
          | nil => exact absurd h (natDigits_ne_nil _)
          | cons d ds => exact ⟨d, ds, rfl⟩
        have hdig : isDigitChar d = true :=
          natDigits_all_digit n.natAbs d (by rw [hds]; simp)
        obtain ⟨hq, ht, hf, hn2, _⟩ := isDigitChar_ne d hdig
        have h1 : serNum n = d :: ds := by rw [serNum, if_neg hn, hds]
        simp only [serVal]
        rw [h1, List.cons_append] at hnum ⊢
        simp only [parseVal]
        rw [if_neg hq, if_neg ht, if_neg hf, if_neg hn2]
        rw [hnum]
        rfl
  | bool b => cases b <;> simp [serVal, parseVal]
  | null => simp [serVal, parseVal]

theorem parseMembersF_ser :
    ∀ (o : JObj) (fuel : Nat), o ≠ [] → okObj o = true → o.length ≤ fuel →
      parseMembersF fuel (serMembers o ++ ['\x7d']) = some (o, []) := by
  intro o
  induction o with
  | nil => intro fuel h _ _; exact absurd rfl h
  | cons m ms ih =>
      intro fuel _ hok hlen
      obtain ⟨k, v⟩ := m
      obtain ⟨fuel, rfl⟩ : ∃ f, fuel = f + 1 := by
        cases fuel with
        | zero => simp at hlen
        | succ f => exact ⟨f, rfl⟩
      have hokk : okStr k = true ∧ okVal v = true := by
        have := hok
        simp only [okObj, List.all_cons, Bool.and_eq_true] at this
        exact this.1
      have hoks : okObj ms = true := by
        have := hok
        simp only [okObj, List.all_cons, Bool.and_eq_true] at this
        exact this.2
      cases ms with
      | nil =>
          have h1 : serMembers [(k, v)] ++ ['\x7d']
              = serStr k ++ (':' :: (serVal v ++ ['\x7d'])) := by
            simp [serMembers]
          rw [h1]
          simp only [parseMembersF]
          rw [parseStringAt_ser k _ hokk.1]
          simp only [if_pos]
          rw [parseVal_ser v ['\x7d'] hokk.2
            (by intro c hc; simp at hc; subst hc; decide)]
          simp
      | cons m2 ms2 =>
          have h1 : serMembers ((k, v) :: m2 :: ms2) ++ ['\x7d']
              = serStr k ++ (':' :: (serVal v ++ (',' :: (serMembers (m2 :: ms2) ++ ['\x7d'])))) := by
            simp [serMembers]
          rw [h1]
          simp only [parseMembersF]
          rw [parseStringAt_ser k _ hokk.1]
          simp only [if_pos]
          rw [parseVal_ser v _ hokk.2
            (by intro c hc; simp at hc; subst hc; decide)]
          have hrec := ih fuel (by simp) hoks (by simp at hlen ⊢; omega)
          simp [hrec]

theorem serMembers_length_ge : ∀ o : JObj, o.length ≤ (serMembers o).length := by
  intro o
  induction o with
  | nil => simp [serMembers]
  | cons m ms ih =>
      obtain ⟨k, v⟩ := m
      cases ms with
      | nil => simp [serMembers, serStr]
      | cons m2 ms2 =>
          simp only [serMembers, List.length_append, List.length_cons] at ih ⊢
          simp [serStr]
          omega

theorem serMembers_cons_head (k : List Char) (v : JVal) (ms : JObj) :
    (serMembers ((k, v) :: ms)).head? = some '"' := by
  cases ms <;> simp [serMembers, serStr]

theorem loads_cons (c : Char) (rest : List Char) :
    loads (c :: rest)
      = if c = '\x7b' then
          if rest = ['\x7d'] then some []
          else
            match parseMembersF (rest.length + 1) rest with
            | none => none
            | some (o, r) => if r = [] then some o else none
        else none := rfl

theorem loads_serObj (o : JObj) (ho : okObj o = true) :
    loads (serObj o) = some o := by
  cases o with
  | nil => rfl
  | cons m ms =>
      obtain ⟨k, v⟩ := m
      have hlen := serMembers_length_ge ((k, v) :: ms)
      have hne : ¬(serMembers ((k, v) :: ms) ++ ['\x7d'] = ['\x7d']) := by
        have hh := serMembers_cons_head k v ms
        cases hsm : serMembers ((k, v) :: ms) with
        | nil => rw [hsm] at hh; simp at hh
        | cons c t =>
            rw [hsm] at hh
            simp at hh
            subst hh
            intro h
            rw [List.cons_append] at h
            simp at h
      rw [serObj, List.cons_append, loads_cons, if_pos rfl, if_neg hne]
      have hrec := parseMembersF_ser ((k, v) :: ms)
        ((serMembers ((k, v) :: ms) ++ ['\x7d']).length + 1)
        (by simp) ho (by simp at hlen ⊢; omega)
      rw [hrec]
      rfl

/-! ### Demuxer lemmas -/

theorem listRemove_eq_none (x : BTok) (l : List BTok) (h : x ∉ l) :
    listRemove x l = none := by
  induction l with
  | nil => rfl
  | cons y r ih =>
      have hy : ¬(y = x) := fun he => h (he ▸ List.mem_cons_self y r)
      simp [listRemove, hy, ih (fun hm => h (List.mem_cons_of_mem y hm))]

theorem stepCtrl_neutral (ctrl : List BTok) (c : Char) (hc : neutralChar c = true) :
    stepCtrl ctrl c = some ctrl := by
  obtain ⟨h1, h2, h3⟩ := (neutralChar_iff c).1 hc
  unfold stepCtrl
  rw [if_neg h1, if_neg h2, if_neg h3]

theorem demuxStep_eq (s : DemuxState) (c : Char) (ctrl : List BTok)
    (h : stepCtrl s.bracket_control c = some ctrl) :
    demuxStep s c = demuxApply s.stream_data c ctrl := by
  unfold demuxStep
  rw [h]

theorem demuxStep_neutral_inBrace (s : DemuxState) (c : Char)
    (hc : neutralChar c = true) (h : BTok.lbrace ∈ s.bracket_control) :
    demuxStep s c = .cont ⟨s.stream_data ++ [c], s.bracket_control⟩ := by
  rw [demuxStep_eq s c s.bracket_control (stepCtrl_neutral s.bracket_control c hc)]
  unfold demuxApply
  rw [if_pos h]

theorem runInner_cons (s : DemuxState) (c : Char) (rest : List Char) (e : StreamEnd) :
    runInner s (c :: rest) e
      = match demuxStep s c with
        | .cont s2 => runInner s2 rest e
        | .emit o s2 => consCycle o (runInner s2 rest e)
        | .closed => .ended [] .closed
        | .error .valueError => .fatal [] .demuxValueError
        | .error .decodeError => .fatal [] .decodeError := by
  cases e <;> rfl

theorem runInner_neutral (l : List Char) :
    ∀ (s : DemuxState) (rest : List Char) (e : StreamEnd),
      (∀ c ∈ l, neutralChar c = true) → BTok.lbrace ∈ s.bracket_control →
      runInner s (l ++ rest) e
        = runInner ⟨s.stream_data ++ l, s.bracket_control⟩ rest e := by
  induction l with
  | nil => intro s rest e _ _; simp
  | cons c l ih =>
      intro s rest e hl hb
      rw [List.cons_append, runInner_cons,
        demuxStep_neutral_inBrace s c (hl c (by simp)) hb]
      show runInner ⟨s.stream_data ++ [c], s.bracket_control⟩ (l ++ rest) e
        = runInner ⟨s.stream_data ++ c :: l, s.bracket_control⟩ rest e
      rw [ih ⟨s.stream_data ++ [c], s.bracket_control⟩ rest e
        (fun d hd => hl d (by simp [hd])) hb]
      simp

theorem serStr_neutral (k : List Char) (hk : okStr k = true) :
    ∀ c ∈ serStr k, neutralChar c = true := by
  intro c hc
  simp only [serStr, List.cons_append, List.mem_cons, List.mem_append,
    List.mem_singleton, List.not_mem_nil, or_false, false_or] at hc
  rcases hc with rfl | hc | rfl
  · decide
  · rw [okStr, List.all_eq_true] at hk
    exact okStrChar_neutral c (hk c hc)
  · decide

theorem serVal_neutral (v : JVal) (hv : okVal v = true) :
    ∀ c ∈ serVal v, neutralChar c = true := by
  cases v with
  | str a => exact fun c hc => serStr_neutral a hv c hc
  | num n =>
      intro c hc
      simp only [serVal, serNum] at hc
      split at hc
      · simp only [List.mem_cons] at hc
        rcases hc with rfl | hc
        · decide
        · exact isDigitChar_neutral c (natDigits_all_digit n.natAbs c hc)
      · exact isDigitChar_neutral c (natDigits_all_digit n.natAbs c hc)
  | bool b =>
      cases b
      · exact (by decide : ∀ c ∈ (['f', 'a', 'l', 's', 'e'] : List Char),
          neutralChar c = true)
      · exact (by decide : ∀ c ∈ (['t', 'r', 'u', 'e'] : List Char),
          neutralChar c = true)
  | null =>
      exact (by decide : ∀ c ∈ (['n', 'u', 'l', 'l'] : List Char),
        neutralChar c = true)

theorem serMembers_neutral : ∀ (o : JObj), okObj o = true →
    ∀ c ∈ serMembers o, neutralChar c = true := by
  intro o
  induction o with
  | nil => intro _ c hc; simp [serMembers] at hc
  | cons m ms ih =>
      intro hok c hc
      obtain ⟨k, v⟩ := m
      have hokk : okStr k = true ∧ okVal v = true := by
        have := hok
        simp only [okObj, List.all_cons, Bool.and_eq_true] at this
        exact this.1
      have hoks : okObj ms = true := by
        have := hok
        simp only [okObj, List.all_cons, Bool.and_eq_true] at this
        exact this.2
      cases ms with
      | nil =>
          simp only [serMembers, serStr, List.cons_append, List.append_assoc,
            List.mem_cons, List.mem_append, List.mem_singleton,
            List.not_mem_nil, or_false, false_or] at hc
          rcases hc with rfl | hc | rfl | rfl | hc
          · decide
          · rw [okStr, List.all_eq_true] at hokk
            exact okStrChar_neutral c (hokk.1 c hc)
          · decide
          · decide
          · exact serVal_neutral v hokk.2 c hc
      | cons m2 ms2 =>
          simp only [serMembers, serStr, List.cons_append, List.append_assoc,
            List.mem_cons, List.mem_append, List.mem_singleton,
            List.not_mem_nil, or_false, false_or] at hc
          rcases hc with rfl | hc | rfl | rfl | hc | rfl | hc
          · decide
          · rw [okStr, List.all_eq_true] at hokk
            exact okStrChar_neutral c (hokk.1 c hc)
          · decide
          · decide
          · exact serVal_neutral v hokk.2 c hc
          · decide
          · refine ih hoks c ?_
            simpa [serMembers, serStr, List.cons_append, List.append_assoc,
              List.mem_cons, List.mem_append, List.mem_singleton,
              List.not_mem_nil, or_false, false_or] using hc

theorem runInner_serObj (o : JObj) (ho : okObj o = true) (rest : List Char)
    (e : StreamEnd) :
    runInner demuxInit (serObj o ++ rest) e
      = consCycle o (runInner demuxInit rest e) := by
  have h1 : serObj o ++ rest = '\x7b' :: (serMembers o ++ ('\x7d' :: rest)) := by
    simp [serObj]
  rw [h1, runInner_cons]
  have hstep : demuxStep demuxInit '\x7b'
      = .cont ⟨['\x7b'], [BTok.lbracket, BTok.lbrace]⟩ := by decide
  rw [hstep]
  show runInner ⟨['\x7b'], [BTok.lbracket, BTok.lbrace]⟩
      (serMembers o ++ ('\x7d' :: rest)) e = _
  rw [runInner_neutral (serMembers o) ⟨['\x7b'], [BTok.lbracket, BTok.lbrace]⟩
    ('\x7d' :: rest) e (serMembers_neutral o ho) (by simp)]
  rw [runInner_cons]
  have hload : loads (('\x7b' :: serMembers o) ++ ['\x7d']) = some o := by
    have := loads_serObj o ho
    rw [serObj] at this
    exact this
  have hstep2 : demuxStep ⟨'\x7b' :: serMembers o, [BTok.lbracket, BTok.lbrace]⟩ '\x7d'
      = .emit o ⟨[], [BTok.lbracket]⟩ := by
    have hctrl : stepCtrl [BTok.lbracket, BTok.lbrace] '\x7d' = some [BTok.lbracket] := by
      decide
    rw [demuxStep_eq _ '\x7d' [BTok.lbracket] hctrl]
    unfold demuxApply
    rw [if_neg (by decide), if_pos (by decide), if_neg (by simp)]
    rw [hload]
  show (match demuxStep ⟨'\x7b' :: serMembers o, [BTok.lbracket, BTok.lbrace]⟩ '\x7d' with
      | .cont s2 => runInner s2 rest e
      | .emit o2 s2 => consCycle o2 (runInner s2 rest e)
      | .closed => CycleResult.ended [] .closed
      | .error .valueError => CycleResult.fatal [] .demuxValueError
      | .error .decodeError => CycleResult.fatal [] .decodeError)
      = consCycle o (runInner demuxInit rest e)
  rw [hstep2]
  rfl

theorem runInner_closing (e : StreamEnd) :
    runInner demuxInit (']' :: []) e = .ended [] .closed := by
  rw [runInner_cons]
  rw [show demuxStep demuxInit ']' = StepResult.closed from by decide]

theorem runInner_serObjsSep :
    ∀ (objs : List JObj), (∀ o ∈ objs, okObj o = true) → ∀ e : StreamEnd,
      runInner demuxInit (serObjsSep objs ++ [']']) e = .ended objs .closed := by
  intro objs
  induction objs with
  | nil =>
      intro _ e
      simp only [serObjsSep, List.nil_append]
      exact runInner_closing e
  | cons o objs ih =>
      intro hok e
      cases objs with
      | nil =>
          simp only [serObjsSep]
          rw [runInner_serObj o (hok o (by simp)) [']'] e, runInner_closing e]
          rfl
      | cons o2 objs2 =>
          have h1 : serObjsSep (o :: o2 :: objs2) ++ [']']
              = serObj o ++ (',' :: (serObjsSep (o2 :: objs2) ++ [']'])) := by
            simp [serObjsSep]
          rw [h1, runInner_serObj o (hok o (by simp)) _ e]
          rw [runInner_cons]
      
      
          rw [show demuxStep demuxInit ',' = StepResult.cont demuxInit from by decide]
          show consCycle o (runInner demuxInit (serObjsSep (o2 :: objs2) ++ [']']) e)
            = CycleResult.ended (o :: o2 :: objs2) CycleEnd.closed
          rw [ih (fun o3 h3 => hok o3 (by simp [h3])) e]
          rfl

theorem runCycle_serBody (objs : List JObj)
    (hok : ∀ o ∈ objs, okObj o = true) :
    runCycle (serBody objs) .clean = .ended objs .closed := by
  have h1 : serBody objs = '[' :: (serObjsSep objs ++ [']']) := by
    simp [serBody]
  rw [h1]
  show runCycle ('[' :: (serObjsSep objs ++ [']'])) .clean = _
  unfold runCycle
  rw [if_pos rfl]
  exact runInner_serObjsSep objs hok .clean

/-! ### Parse-buffer invariant lemmas -/

theorem demuxStep_none_eq (s : DemuxState) (c : Char)
    (h : stepCtrl s.bracket_control c = none) :
    demuxStep s c = .error .valueError := by
  unfold demuxStep
  rw [h]

theorem demuxStep_cont_cases (s : DemuxState) (c : Char) (s2 : DemuxState)
    (h : demuxStep s c = .cont s2) :
    BTok.lbrace ∈ s2.bracket_control ∨ s2.stream_data = [] := by
  cases hc : stepCtrl s.bracket_control c with
  | none => rw [demuxStep_none_eq s c hc] at h; simp at h
  | some ctrl =>
      rw [demuxStep_eq s c ctrl hc] at h
      unfold demuxApply at h
      by_cases h1 : BTok.lbrace ∈ ctrl
      · rw [if_pos h1] at h
        injection h with h4
        left
        rw [← h4]
        exact h1
      · rw [if_neg h1] at h
        by_cases h2 : BTok.lbracket ∈ ctrl
        · rw [if_pos h2] at h
          by_cases h3 : s.stream_data = []
          · rw [if_pos h3] at h
            injection h with h4
            right
            rw [← h4]
            exact h3
          · rw [if_neg h3] at h
            cases hl : loads (s.stream_data ++ ['\x7d']) with
            | some obj =>
                rw [hl] at h
                have h5 : StepResult.emit obj ⟨[], ctrl⟩ = StepResult.cont s2 := h
                simp at h5
            | none =>
                rw [hl] at h
                have h5 : StepResult.error .decodeError = StepResult.cont s2 := h
                simp at h5
        · rw [if_neg h2] at h
          simp at h

theorem demuxStep_emit_buf (s : DemuxState) (c : Char) (o : JObj) (s2 : DemuxState)
    (h : demuxStep s c = .emit o s2) : s2.stream_data = [] := by
  cases hc : stepCtrl s.bracket_control c with
  | none => rw [demuxStep_none_eq s c hc] at h; simp at h
  | some ctrl =>
      rw [demuxStep_eq s c ctrl hc] at h
      unfold demuxApply at h
      by_cases h1 : BTok.lbrace ∈ ctrl
      · rw [if_pos h1] at h; simp at h
      · rw [if_neg h1] at h
        by_cases h2 : BTok.lbracket ∈ ctrl
        · rw [if_pos h2] at h
          by_cases h3 : s.stream_data = []
          · rw [if_pos h3] at h; simp at h
          · rw [if_neg h3] at h
            cases hl : loads (s.stream_data ++ ['\x7d']) with
            | some obj =>
                rw [hl] at h
                have h5 : StepResult.emit obj ⟨[], ctrl⟩ = StepResult.emit o s2 := h
                injection h5 with h6 h7
                rw [← h7]
            | none =>
                rw [hl] at h
                have h5 : StepResult.error .decodeError = StepResult.emit o s2 := h
                simp at h5
        · rw [if_neg h2] at h
          simp at h

theorem runCont_cons (s : DemuxState) (c : Char) (l : List Char) :
    runCont s (c :: l)
      = match demuxStep s c with
        | .cont s2 => runCont s2 l
        | .emit _ s2 => runCont s2 l
        | _ => none := rfl

theorem runCont_inv : ∀ (l : List Char) (s0 s : DemuxState),
    (BTok.lbrace ∉ s0.bracket_control → s0.stream_data = []) →
    runCont s0 l = some s →
    (BTok.lbrace ∉ s.bracket_control → s.stream_data = []) := by
  intro l
  induction l with
  | nil =>
      intro s0 s h0 hr
      simp [runCont] at hr
      rw [← hr]
      exact h0
  | cons c rest ih =>
      intro s0 s h0 hr
      rw [runCont_cons] at hr
      cases hstep : demuxStep s0 c with
      | cont s2 =>
          rw [hstep] at hr
          exact ih s2 s
            (fun hm => (demuxStep_cont_cases s0 c s2 hstep).resolve_left hm) hr
      | emit o s2 =>
          rw [hstep] at hr
          exact ih s2 s (fun _ => demuxStep_emit_buf s0 c o s2 hstep) hr
      | closed =>
          rw [hstep] at hr
          simp at hr
      | error e =>
          rw [hstep] at hr
          simp at hr

/-! ### Channel-loop equations -/

theorem channelLoop_httpError (req : RequestSchema) (refresh : Bool) (s : Nat)
    (opens : List OpenResult) (renews : List (List String)) :
    channelLoop req refresh (.httpError s :: opens) renews
      = if s = 404 then
          match renews with
          | [] => ([.openAttempt req], .outOfEnv)
          | r :: renews2 =>
              (.openAttempt req :: .renewCall ::
                 (channelLoop { req with subscriptionIds := r } refresh opens renews2).1,
               (channelLoop { req with subscriptionIds := r } refresh opens renews2).2)
        else ([.openAttempt req], .raised (.httpError s)) := rfl

theorem channelLoop_emptyResponse (req : RequestSchema) (refresh : Bool)
    (opens : List OpenResult) (renews : List (List String)) :
    channelLoop req refresh (.emptyResponse :: opens) renews
      = ([.openAttempt req], .returned) := rfl

theorem channelLoop_stream (req : RequestSchema) (refresh : Bool)
    (bytes : List Char) (e : StreamEnd)
    (opens : List OpenResult) (renews : List (List String)) :
    channelLoop req refresh (.stream bytes e :: opens) renews
      = match runCycle bytes e with
        | .fatal objs err => (.openAttempt req :: handleEvents objs, .raised err)
        | .ended objs _ =>
            if refresh then
              (.openAttempt req ::
                 (handleEvents objs ++ (channelLoop req refresh opens renews).1),
               (channelLoop req refresh opens renews).2)
            else (.openAttempt req :: handleEvents objs, .returned) := rfl

theorem create_event_channel_ne (subs : List String) (ct ka : Nat)
    (refresh : Bool) (opens : List OpenResult) (renews : List (List String))
    (h : subs ≠ []) :
    create_event_channel subs ct ka refresh opens renews
      = channelLoop ⟨ct, ka, subs⟩ refresh opens renews := by
  unfold create_event_channel
  rw [if_neg h]

theorem channelLoop_cons_head (req : RequestSchema) (refresh : Bool)
    (o : OpenResult) (opens : List OpenResult) (renews : List (List String)) :
    ∃ t out, channelLoop req refresh (o :: opens) renews
      = (.openAttempt req :: t, out) := by
  cases o with
  | httpError s =>
      rw [channelLoop_httpError]
      by_cases hs : s = 404
      · rw [if_pos hs]
        cases renews with
        | nil => exact ⟨[], .outOfEnv, rfl⟩
        | cons r rs => exact ⟨_, _, rfl⟩
      · rw [if_neg hs]
        exact ⟨[], _, rfl⟩
  | emptyResponse => exact ⟨[], .returned, channelLoop_emptyResponse req refresh opens renews⟩
  | stream bytes e =>
      rw [channelLoop_stream]
      cases hrc : runCycle bytes e with
      | fatal objs err => exact ⟨_, _, rfl⟩
      | ended objs ce =>
          cases refresh with
          | true => exact ⟨_, _, rfl⟩
          | false => exact ⟨_, _, rfl⟩

/-! ### Classifier equations -/

theorem notification_factory_some (data : JObj) (t : List Char)
    (h : baseTypeOf data = some t) :
    notification_factory data
      = if t = notificationTag then some (.notification data)
        else if t = keepAliveTag then some (.keepAlive (statusOf data))
        else none := by
  unfold notification_factory
  rw [h]

theorem notification_factory_none_type (data : JObj)
    (h : baseTypeOf data = none) :
    notification_factory data = none := by
  unfold notification_factory
  rw [h]

/-! ### Claim theorems -/

/-- Claim C1, amended: for a response body that is one outer JSON array of N
well-formed flat JSON objects whose strings contain no brace, bracket, quote
or backslash characters, `create_event_channel` reads the body byte by byte,
invokes the handler exactly N times, in stream order, and the decoded object
passed to `notification_factory` for the k-th invocation is exactly the k-th
source object (the cycle ends gracefully and the call returns).  The
amendment restricts the objects' strings: the claim as stated fails when a
string value contains a brace (see the counterexample). -/
theorem C1_framing_amended (objs : List JObj) (ids : List String) (ct ka : Nat)
    (renews : List (List String))
    (hok : ∀ o ∈ objs, okObj o = true) (hids : ids ≠ []) :
    runCycle (serBody objs) .clean = .ended objs .closed
    ∧ create_event_channel ids ct ka false [.stream (serBody objs) .clean] renews
        = (Event.openAttempt ⟨ct, ka, ids⟩ :: handleEvents objs, .returned) := by
  have hc := runCycle_serBody objs hok
  refine ⟨hc, ?_⟩
  rw [create_event_channel_ne ids ct ka false _ _ hids, channelLoop_stream, hc]
  rfl

/-- Claim C1 witness: a one-object body, evaluated. -/
theorem C1_witness :
    create_event_channel ["s1"] 120 5 false
      [.stream (serBody [[("a".data, JVal.str "b".data)]]) .clean] []
      = (Event.openAttempt ⟨120, 5, ["s1"]⟩
          :: handleEvents [[("a".data, JVal.str "b".data)]], .returned) :=
  (C1_framing_amended [[("a".data, JVal.str "b".data)]] ["s1"] 120 5 []
    (by decide) (by decide)).2

/-- Claim C1 counterexample: the object text between the brackets is a
well-formed flat JSON object (the model decoder accepts it), yet because its
string value contains a closing brace the bracket counter fires early, the
buffered prefix fails to decode, and the handler is invoked zero times
instead of once: the claim as frozen is false. -/
theorem C1_counterexample :
    loads "\x7b\"a\":\"\x7d\"\x7d".data
      = some [("a".data, JVal.str "\x7d".data)]
    ∧ "[\x7b\"a\":\"\x7d\"\x7d]".data
        = '[' :: ("\x7b\"a\":\"\x7d\"\x7d".data ++ [']'])
    ∧ create_event_channel ["s1"] 120 5 false
        [.stream "[\x7b\"a\":\"\x7d\"\x7d]".data .clean] []
        = ([.openAttempt ⟨120, 5, ["s1"]⟩], .raised .decodeError) :=
  ⟨by decide, by decide, by decide⟩

/-- Claim C2, amended: for every object emitted by the demuxer, the handler
receives exactly what `notification_factory` returned for it: a keep-alive
discriminator yields a `keepAlive` record carrying the object's status field,
the data discriminator yields a `notification` record carrying the payload
unchanged, and any other discriminator yields no record (`none`) — but the
handler IS still invoked, with `none`, for such an object (the code calls
`notification_handler.process(notification)` unconditionally); the claim's
assertion that the handler is not invoked is what the amendment drops. -/
theorem C2_routing_amended (objs : List JObj) (k : Nat) (hk : k < objs.length)
    (ids : List String) (ct ka : Nat) (renews : List (List String))
    (hok : ∀ o ∈ objs, okObj o = true) (hids : ids ≠ []) :
    (create_event_channel ids ct ka false
        [.stream (serBody objs) .clean] renews).1[k + 1]?
      = some (Event.handle (notification_factory objs[k]))
    ∧ (baseTypeOf objs[k] = some keepAliveTag →
        notification_factory objs[k] = some (.keepAlive (statusOf objs[k])))
    ∧ (baseTypeOf objs[k] = some notificationTag →
        notification_factory objs[k] = some (.notification objs[k]))
    ∧ (baseTypeOf objs[k] ≠ some notificationTag →
        baseTypeOf objs[k] ≠ some keepAliveTag →
        notification_factory objs[k] = none) := by
  have hc := runCycle_serBody objs hok
  have heq : create_event_channel ids ct ka false
      [.stream (serBody objs) .clean] renews
      = (Event.openAttempt ⟨ct, ka, ids⟩ :: handleEvents objs, .returned) := by
    rw [create_event_channel_ne ids ct ka false _ _ hids, channelLoop_stream, hc]
    rfl
  refine ⟨?_, ?_, ?_, ?_⟩
  · rw [heq]
    simp only [handleEvents]
    rw [List.getElem?_cons_succ, List.getElem?_map, List.getElem?_eq_getElem hk]
    rfl
  · intro h
    rw [notification_factory_some _ _ h, if_neg (by decide), if_pos rfl]
  · intro h
    rw [notification_factory_some _ _ h, if_pos rfl]
  · intro h1 h2
    cases hbt : baseTypeOf objs[k] with
    | none => exact notification_factory_none_type _ hbt
    | some t =>
        rw [hbt] at h1 h2
        rw [notification_factory_some _ _ hbt,
          if_neg (fun he => h1 (by rw [he])), if_neg (fun he => h2 (by rw [he]))]

/-- Claim C2 witness: a keep-alive object at index 0. -/
theorem C2_witness :
    (create_event_channel ["s1"] 120 5 false
       [.stream (serBody [[(typeKey, JVal.str keepAliveTag),
          (statusKey, JVal.str "OK".data)]]) .clean] []).1[1]?
      = some (Event.handle (notification_factory
          [(typeKey, JVal.str keepAliveTag), (statusKey, JVal.str "OK".data)]))
    ∧ notification_factory
        [(typeKey, JVal.str keepAliveTag), (statusKey, JVal.str "OK".data)]
        = some (.keepAlive (statusOf
            [(typeKey, JVal.str keepAliveTag), (statusKey, JVal.str "OK".data)])) := by
  have h := C2_routing_amended
    [[(typeKey, JVal.str keepAliveTag), (statusKey, JVal.str "OK".data)]] 0
    (by decide) ["s1"] 120 5 [] (by decide) (by decide)
  exact ⟨h.1, h.2.1 (by decide)⟩

/-- Claim C2 counterexample: an object with an unknown discriminator produces
no record, but the handler is nevertheless invoked (with the empty value) —
the trace contains one `handle` event for it, refuting "the handler is not
invoked for that object". -/
theorem C2_counterexample :
    notification_factory [(typeKey, JVal.str "#Other".data)] = none
    ∧ create_event_channel ["s1"] 120 5 false
        [.stream (serBody [[(typeKey, JVal.str "#Other".data)]]) .clean] []
        = ([.openAttempt ⟨120, 5, ["s1"]⟩, .handle none], .returned) :=
  ⟨by decide, by decide⟩

/-- Claim C3, evaluation at the failing input: a mid-stream
`ChunkedEncodingError` with the default `refresh_after_expire = False` makes
`create_event_channel` return after a single open attempt — the session is
NOT reopened, contradicting the claim; with `refresh_after_expire = True` the
session is reopened with the same identifier list and no renewal call. -/
theorem C3_code_bug_eval :
    create_event_channel ["s1"] 120 5 false [.stream "[\x7b".data .corrupt] []
      = ([.openAttempt ⟨120, 5, ["s1"]⟩], .returned)
    ∧ create_event_channel ["s1"] 120 5 true
        [.stream "[\x7b".data .corrupt, .emptyResponse] []
      = ([.openAttempt ⟨120, 5, ["s1"]⟩, .openAttempt ⟨120, 5, ["s1"]⟩],
         .returned) :=
  ⟨by decide, by decide⟩

/-- Claim C4: a 404 on the open call triggers one renewal call, the request
body's subscription id list is replaced wholesale by the renewed ids, the
open is retried, and the next open attempt carries exactly the renewed ids;
the 404 itself is never surfaced — the run's outcome is whatever the retry
produces. -/
theorem C4_expiry_renewal (ids r : List String) (ct ka : Nat) (refresh : Bool)
    (o2 : OpenResult) (opens : List OpenResult) (renews : List (List String))
    (hids : ids ≠ []) :
    create_event_channel ids ct ka refresh
        (.httpError 404 :: o2 :: opens) (r :: renews)
      = (Event.openAttempt ⟨ct, ka, ids⟩ :: Event.renewCall ::
           (channelLoop ⟨ct, ka, r⟩ refresh (o2 :: opens) renews).1,
         (channelLoop ⟨ct, ka, r⟩ refresh (o2 :: opens) renews).2)
    ∧ ∃ t, (channelLoop ⟨ct, ka, r⟩ refresh (o2 :: opens) renews).1
        = Event.openAttempt ⟨ct, ka, r⟩ :: t := by
  constructor
  · rw [create_event_channel_ne ids ct ka refresh _ _ hids,
      channelLoop_httpError, if_pos rfl]
  · obtain ⟨t, out, h⟩ := channelLoop_cons_head ⟨ct, ka, r⟩ refresh o2 opens renews
    exact ⟨t, by rw [h]⟩

/-- Claim C4 witness: concrete expiry followed by an empty response. -/
theorem C4_witness :
    create_event_channel ["s1"] 120 5 false [.httpError 404, .emptyResponse] [["r1"]]
      = ([.openAttempt ⟨120, 5, ["s1"]⟩, .renewCall,
          .openAttempt ⟨120, 5, ["r1"]⟩], .returned) := by
  have h := C4_expiry_renewal ["s1"] ["r1"] 120 5 false .emptyResponse [] []
    (by decide)
  rw [h.1]
  rfl

/-- Claim C5: calling `create_event_channel` with an empty subscription list
raises `ValueError` immediately — the event trace is empty, so no open-session
POST and no network activity of any kind is performed. -/
theorem C5_no_subscription_guard (ct ka : Nat) (refresh : Bool)
    (opens : List OpenResult) (renews : List (List String)) :
    create_event_channel [] ct ka refresh opens renews
      = ([], .raised .valueErrorNoSubscription) := by
  unfold create_event_channel
  rw [if_pos rfl]

/-- Claim C6: a response body of exactly `[]` yields zero handler invocations
and, with no refresh policy, the call returns normally (graceful end). -/
theorem C6_idle_cycle (ids : List String) (ct ka : Nat)
    (renews : List (List String)) (hids : ids ≠ []) :
    create_event_channel ids ct ka false [.stream "[]".data .clean] renews
      = ([.openAttempt ⟨ct, ka, ids⟩], .returned) := by
  rw [create_event_channel_ne ids ct ka false _ _ hids, channelLoop_stream]
  rw [show runCycle "[]".data .clean = CycleResult.ended [] CycleEnd.closed
    from by decide]
  rfl

/-- Claim C6 witness: concrete idle cycle. -/
theorem C6_witness :
    create_event_channel ["s1"] 120 5 false [.stream "[]".data .clean] []
      = ([.openAttempt ⟨120, 5, ["s1"]⟩], .returned) :=
  C6_idle_cycle ["s1"] 120 5 [] (by decide)

/-- Claim C7: the parse-buffer invariant.  Along any run of the inner read
loop that keeps continuing (no close, no exception), whenever no `\x7b` is on
the bracket stack the accumulator `stream_data` is empty — so the buffer is
empty immediately before the first byte of each object and at most one
object's text is ever in flight; and every emitting step leaves the
accumulator empty. -/
theorem C7_parse_buffer_invariant :
    (∀ (l : List Char) (s : DemuxState), runCont demuxInit l = some s →
       BTok.lbrace ∉ s.bracket_control → s.stream_data = [])
    ∧ (∀ (s : DemuxState) (c : Char) (o : JObj) (s2 : DemuxState),
         demuxStep s c = .emit o s2 → s2.stream_data = []) := by
  constructor
  · intro l s hr
    exact runCont_inv l demuxInit s (fun _ => rfl) hr
  · exact demuxStep_emit_buf

/-- Claim C7 witness: after one full object the buffer is again empty. -/
theorem C7_witness :
    (⟨[], [BTok.lbracket]⟩ : DemuxState).stream_data = [] :=
  C7_parse_buffer_invariant.1 ['\x7b', '\x7d'] ⟨[], [BTok.lbracket]⟩
    (by decide) (by decide)

/-- Claim C8: an open attempt failing with an HTTP error whose status is not
404 is re-raised verbatim; the trace shows a single open attempt, no renewal
call and no retry. -/
theorem C8_fatal_propagation (ids : List String) (ct ka : Nat) (refresh : Bool)
    (st : Nat) (opens : List OpenResult) (renews : List (List String))
    (hids : ids ≠ []) (hst : st ≠ 404) :
    create_event_channel ids ct ka refresh (.httpError st :: opens) renews
      = ([.openAttempt ⟨ct, ka, ids⟩], .raised (.httpError st)) := by
  rw [create_event_channel_ne ids ct ka refresh _ _ hids,
    channelLoop_httpError, if_neg hst]

/-- Claim C8 witness: a 500 on the open call. -/
theorem C8_witness :
    create_event_channel ["s1"] 120 5 false [.httpError 500] []
      = ([.openAttempt ⟨120, 5, ["s1"]⟩], .raised (.httpError 500)) :=
  C8_fatal_propagation ["s1"] 120 5 false 500 [] [] (by decide) (by decide)

/-- Claim C9: if the cycle over a response body aborts with a JSON decode
error (the bracket-balanced buffered text failed to decode), the error is
raised out of `create_event_channel`: the trace ends after the handler calls
of the objects already emitted, with no renewal call and no further open
attempt, for any value of the refresh flag. -/
theorem C9_malformed_fatal (bytes : List Char) (e : StreamEnd) (objs : List JObj)
    (ids : List String) (ct ka : Nat) (refresh : Bool)
    (opens : List OpenResult) (renews : List (List String))
    (hids : ids ≠ []) (h : runCycle bytes e = .fatal objs .decodeError) :
    create_event_channel ids ct ka refresh (.stream bytes e :: opens) renews
      = (Event.openAttempt ⟨ct, ka, ids⟩ :: handleEvents objs,
         .raised .decodeError) := by
  rw [create_event_channel_ne ids ct ka refresh _ _ hids, channelLoop_stream, h]

/-- Claim C9 witness: the bracket-balanced text of the malformed element
fails to decode and the error escapes. -/
theorem C9_witness :
    runCycle "[\x7b,\x7d]".data .clean = .fatal [] .decodeError
    ∧ create_event_channel ["s1"] 120 5 false
        [.stream "[\x7b,\x7d]".data .clean] []
        = ([.openAttempt ⟨120, 5, ["s1"]⟩], .raised .decodeError) := by
  have h : runCycle "[\x7b,\x7d]".data .clean = .fatal [] .decodeError := by decide
  refine ⟨h, ?_⟩
  have h2 := C9_malformed_fatal "[\x7b,\x7d]".data .clean [] ["s1"] 120 5 false
    [] [] (by decide) h
  rw [h2]
  rfl

/-- Claim C10: a `\x7d` byte arriving while no `\x7b` is on the bracket stack,
or a `]` byte arriving while no `[` is on it, makes `bracket_control.remove`
raise `ValueError`, which propagates out of `create_event_channel` (shown both
at the step level for every such state and end-to-end on concrete streams). -/
theorem C10_unmatched_close_raises :
    (∀ s : DemuxState, BTok.lbrace ∉ s.bracket_control →
       demuxStep s '\x7d' = .error .valueError)
    ∧ (∀ s : DemuxState, BTok.lbracket ∉ s.bracket_control →
       demuxStep s ']' = .error .valueError)
    ∧ create_event_channel ["s1"] 120 5 false [.stream "[\x7d".data .clean] []
        = ([.openAttempt ⟨120, 5, ["s1"]⟩], .raised .demuxValueError)
    ∧ create_event_channel ["s1"] 120 5 false [.stream "[\x7b]]".data .clean] []
        = ([.openAttempt ⟨120, 5, ["s1"]⟩], .raised .demuxValueError) := by
  refine ⟨?_, ?_, by decide, by decide⟩
  · intro s hs
    apply demuxStep_none_eq
    unfold stepCtrl
    rw [if_neg (by decide : ¬(('\x7d' : Char) = '\x7b')), if_pos rfl]
    exact listRemove_eq_none .lbrace s.bracket_control hs
  · intro s hs
    apply demuxStep_none_eq
    unfold stepCtrl
    rw [if_neg (by decide : ¬((']' : Char) = '\x7b')),
      if_neg (by decide : ¬((']' : Char) = '\x7d')), if_pos rfl]
    exact listRemove_eq_none .lbracket s.bracket_control hs

/-- Claim C10 witness: the two step-level cases at concrete states. -/
theorem C10_witness :
    demuxStep ⟨[], []⟩ '\x7d' = .error .valueError
    ∧ demuxStep ⟨[], [BTok.lbrace]⟩ ']' = .error .valueError :=
  ⟨C10_unmatched_close_raises.1 ⟨[], []⟩ (by decide),
   C10_unmatched_close_raises.2.1 ⟨[], [BTok.lbrace]⟩ (by decide)⟩

end O365
